import Mathlib

/-!
Verification development for the lnkshortener URL-shortening service.

The definitions below are a shallow embedding of the Go source:
* `URLRecord` mirrors `file.URLRecord` (internal/file).
* The log-backed `FileStore` is modelled by a `List URLRecord` holding the
  decoded entries of the log file in file order; its operations mirror
  `FileStore.SaveURLRecord`, `FindOriginalURLByShortURL`,
  `FileStore.BatchUpdateDeleteFlag` and `FileStore.SaveAllRecords`.
  Note: `NewProducer` opens the log with `O_WRONLY|O_CREATE|O_APPEND`, so
  `SaveAllRecords` appends after the existing entries rather than truncating;
  the embedding reproduces that.
* The relational `DBStore` is modelled by a `List DBRow` holding the rows of
  the `urls` table in insertion order; its operations mirror
  `DBStore.SaveURLRecord` (INSERT .. ON CONFLICT (original_url) DO NOTHING),
  `DBStore.GetShortURL`, `DBStore.GetOriginalURL` and
  `DBStore.BatchUpdateDeleteFlag`.
* The service layer (`CreateShortURL`, `BatchShorten`, `GetShortURL`,
  `BatchDeleteAsync`) is embedded generically over a `URLStore` record of
  operations, exactly as the Go service is generic over the `URLStore`
  interface.  The random output of `generateID` is passed in as an explicit
  argument; `encodeBase64URL` embeds Go's `base64.URLEncoding` on a byte list.

I/O failures (unreadable file, lost database connection) are not modelled:
every operation is total on the in-memory state, which corresponds to runs
where the storage layer itself does not fail.
-/

/-- Mirrors `file.URLRecord` from internal/file: one persisted URL mapping. -/
structure URLRecord where
  uuid : String
  shortURL : String
  originalURL : String
  userUUID : String
  deletedFlag : Bool
deriving DecidableEq, Repr

/-- The distinguishable error values that the storage layer can surface:
`os.ErrProcessDone` (file store scan exhausted), `database.ErrorDuplicate`,
and the pgx driver's no-rows error from `QueryRow(...).Scan`. -/
inductive StoreErr where
  | errProcessDone
  | errorDuplicate
  | pgxNoRows
deriving DecidableEq, Repr

/-- Errors surfaced by the service layer: `ErrURLNotFound`, `ErrURLDeleted`,
or a storage-layer error passed through verbatim. -/
inductive ServiceErr where
  | urlNotFound
  | urlDeleted
  | storeErr (e : StoreErr)
deriving DecidableEq, Repr

/-! ## Log-backed store (internal/file) -/

/-- The log file's decoded content, in file order. -/
abbrev FileState := List URLRecord

/-- Mirrors `file.SaveURLRecord` / `FileStore.SaveURLRecord`: the producer is
opened in append mode and the record is encoded at the end of the log.  The
method returns the pair Go returns: the empty string and a nil error. -/
def FileStore.saveURLRecord (s : FileState) (r : URLRecord) :
    FileState × String × Option StoreErr :=
  (s ++ [r], "", none)

/-- Mirrors `file.FindOriginalURLByShortURL`: scan the log from the start and
return the first entry whose `shortURL` matches, together with its deleted
flag; return `os.ErrProcessDone` when the scan reaches end of file. -/
def findOriginalURLByShortURL (shortURL : String) :
    FileState → Except StoreErr (String × Bool)
  | [] => Except.error StoreErr.errProcessDone
  | r :: rs =>
      if r.shortURL = shortURL then Except.ok (r.originalURL, r.deletedFlag)
      else findOriginalURLByShortURL shortURL rs

/-- Mirrors `FileStore.GetOriginalURL`, which delegates to
`FindOriginalURLByShortURL`. -/
def FileStore.getOriginalURL (s : FileState) (shortURL : String) :
    Except StoreErr (String × Bool) :=
  findOriginalURLByShortURL shortURL s

/-- The per-entry update performed by `FileStore.BatchUpdateDeleteFlag`:
set `DeletedFlag` on an entry matching both the urlID (compared against the
`UUID` field) and the userID. -/
def markEntry (urlID userID : String) (r : URLRecord) : URLRecord :=
  if r.uuid = urlID ∧ r.userUUID = userID then
    { r with deletedFlag := true }
  else r

/-- Mirrors `FileStore.SaveAllRecords`: a fresh producer is opened with
`O_WRONLY|O_CREATE|O_APPEND` (no truncation), so the given records are
written after the log's existing content. -/
def FileStore.saveAllRecords (s : FileState) (records : List URLRecord) :
    FileState :=
  s ++ records

/-- Mirrors `FileStore.BatchUpdateDeleteFlag`: read every entry of the log,
set the deleted flag on entries whose `UUID` and `UserUUID` match the
arguments, then pass the full updated list to `SaveAllRecords`. -/
def FileStore.batchUpdateDeleteFlag (s : FileState) (urlID userID : String) :
    FileState :=
  FileStore.saveAllRecords s (s.map (markEntry urlID userID))

/-! ## Relational store (internal/database) -/

/-- One row of the `urls` table (the serial `id` column is never read back). -/
structure DBRow where
  shortURL : String
  originalURL : String
  userID : String
  deleted : Bool
deriving DecidableEq, Repr

/-- The `urls` table, in insertion order. -/
abbrev DBState := List DBRow

/-- Mirrors `DBStore.GetShortURL`:
`SELECT short_url FROM urls WHERE original_url = $1` through `QueryRow`,
which yields the first matching row or the driver's no-rows error. -/
def DBStore.getShortURL (s : DBState) (originalURL : String) :
    Except StoreErr String :=
  match s.find? (fun row => row.originalURL = originalURL) with
  | some row => Except.ok row.shortURL
  | none => Except.error StoreErr.pgxNoRows

/-- Mirrors `DBStore.SaveURLRecord`: `INSERT ... ON CONFLICT (original_url)
DO NOTHING`; when no row was affected (an existing row already holds this
`original_url`), look up the existing short URL and return it together with
`database.ErrorDuplicate`; otherwise the row is inserted and the input's
short URL is returned. -/
def DBStore.saveURLRecord (s : DBState) (r : URLRecord) :
    DBState × String × Option StoreErr :=
  match s.find? (fun row => row.originalURL = r.originalURL) with
  | some row => (s, row.shortURL, some StoreErr.errorDuplicate)
  | none =>
      (s ++ [⟨r.shortURL, r.originalURL, r.userUUID, r.deletedFlag⟩],
       r.shortURL, none)

/-- Mirrors `DBStore.GetOriginalURL`:
`SELECT original_url, deleted FROM urls WHERE short_url = $1` through
`QueryRow`: first matching row, or the driver's no-rows error. -/
def DBStore.getOriginalURL (s : DBState) (shortURL : String) :
    Except StoreErr (String × Bool) :=
  match s.find? (fun row => row.shortURL = shortURL) with
  | some row => Except.ok (row.originalURL, row.deleted)
  | none => Except.error StoreErr.pgxNoRows

/-- Mirrors `DBStore.BatchUpdateDeleteFlag`:
`UPDATE urls SET deleted = TRUE WHERE short_url = $1 AND user_id = $2`. -/
def DBStore.batchUpdateDeleteFlag (s : DBState) (urlID userID : String) :
    DBState :=
  s.map (fun row =>
    if row.shortURL = urlID ∧ row.userID = userID then
      { row with deleted := true }
    else row)

/-! ## The `URLStore` interface (internal/logic / internal/app) -/

/-- The subset of the Go `URLStore` interface that the verified service code
uses, as a record of operations over an abstract state type `σ`. -/
structure URLStore (σ : Type) where
  save : σ → URLRecord → σ × String × Option StoreErr
  getOriginalURL : σ → String → Except StoreErr (String × Bool)
  batchUpdateDeleteFlag : σ → String → String → σ

/-- The log-backed implementation of the interface. -/
def fileStore : URLStore FileState where
  save := FileStore.saveURLRecord
  getOriginalURL := FileStore.getOriginalURL
  batchUpdateDeleteFlag := FileStore.batchUpdateDeleteFlag

/-- The relational implementation of the interface. -/
def dbStore : URLStore DBState where
  save := DBStore.saveURLRecord
  getOriginalURL := DBStore.getOriginalURL
  batchUpdateDeleteFlag := DBStore.batchUpdateDeleteFlag

/-! ## Identifier generation (internal/logic/utils.go) -/

/-- The URL-safe base64 alphabet used by Go's `base64.URLEncoding`. -/
def base64URLChars : List Char :=
  "ABCDEFGHIJKLMNOPQRSTUVWXYZabcdefghijklmnopqrstuvwxyz0123456789-_".toList

/-- The character standing for a 6-bit group in URL-safe base64. -/
def b64Char (n : Nat) : Char :=
  base64URLChars.getD n 'A'

/-- Go's `base64.URLEncoding.EncodeToString` on a list of bytes (each given
as a `Nat` below 256): groups of three bytes become four alphabet characters,
a trailing group of two bytes becomes three characters plus one padding
character, a trailing single byte becomes two characters plus two. -/
def encodeBase64URL : List Nat → List Char
  | b0 :: b1 :: b2 :: rest =>
      b64Char (b0 / 4) :: b64Char (b0 % 4 * 16 + b1 / 16) ::
      b64Char (b1 % 16 * 4 + b2 / 64) :: b64Char (b2 % 64) ::
      encodeBase64URL rest
  | [b0, b1] =>
      [b64Char (b0 / 4), b64Char (b0 % 4 * 16 + b1 / 16),
       b64Char (b1 % 16 * 4), '=']
  | [b0] =>
      [b64Char (b0 / 4), b64Char (b0 % 4 * 16), '=', '=']
  | [] => []

/-- Mirrors `generateID`: read 8 bytes from `crypto/rand` and return their
padded URL-safe base64 encoding.  The random bytes are an explicit input. -/
def generateID (randomBytes : List Nat) : List Char :=
  encodeBase64URL randomBytes

/-! ## Service layer

The Go service methods are translated with the pieces of ambient state they
touch made explicit: the store state is threaded through, the global
`Counter` is an explicit `Nat`, and each internal `generateID()` call is
replaced by an explicit id argument (one per call). -/

/-- Mirrors `ShortenerService.GetShortURL` (internal/app and internal/logic):
prepend the base URL to the short id, resolve through the store, map
`os.ErrProcessDone` to `ErrURLNotFound`, pass other storage errors through,
and map a deleted record to `ErrURLDeleted` with the original URL attached. -/
def getShortURLService {σ : Type} (st : URLStore σ) (baseURL : String)
    (s : σ) (shortID : String) : String × Option ServiceErr :=
  let shortURL := baseURL ++ "/" ++ shortID
  match st.getOriginalURL s shortURL with
  | Except.error e =>
      if e = StoreErr.errProcessDone then ("", some ServiceErr.urlNotFound)
      else ("", some (ServiceErr.storeErr e))
  | Except.ok (orig, deleted) =>
      if deleted then (orig, some ServiceErr.urlDeleted) else (orig, none)

/-- Mirrors `ShortenerService.CreateShortURL` (internal/logic): build the
record with `UUID = strconv.Itoa(Counter)` and `ShortURL = BaseURL + "/" +
generateID()`, save it, return the existing short URL with the duplicate
error when the store signals `database.ErrorDuplicate`, fail on any other
error, and otherwise increment the counter and return the new short URL.
Result: (store state, counter, returned short URL, returned error). -/
def createShortURL {σ : Type} (st : URLStore σ) (baseURL id : String)
    (s : σ) (counter : Nat) (originalURL userID : String) :
    σ × Nat × String × Option ServiceErr :=
  let shortenedURL := baseURL ++ "/" ++ id
  let r : URLRecord := ⟨toString counter, shortenedURL, originalURL, userID, false⟩
  match st.save s r with
  | (s2, shortURL, some StoreErr.errorDuplicate) =>
      (s2, counter, shortURL, some (ServiceErr.storeErr StoreErr.errorDuplicate))
  | (s2, _, some e) => (s2, counter, "", some (ServiceErr.storeErr e))
  | (s2, _, none) => (s2, counter + 1, shortenedURL, none)

/-- Input item of `BatchShorten` (struct `BatchReq`). -/
structure BatchReq where
  correlationID : String
  originalURL : String
deriving DecidableEq, Repr

/-- Output item of `BatchShorten` (struct `BatchRes`). -/
structure BatchRes where
  correlationID : String
  shortURL : String
deriving DecidableEq, Repr

/-- Mirrors `ShortenerService.BatchShorten` (internal/app): iterate the
requests in order; for each, generate an id (supplied here alongside the
request), build the record with `UUID = id`, save it, and return `nil`
together with the error as soon as any save returns a non-nil error
(the value save returns is discarded with `_`); on success append a result
carrying the request's correlation id and the locally built short URL, and
increment the counter.  Result on success: (state, counter, results). -/
def batchShorten {σ : Type} (st : URLStore σ) (baseURL userID : String) :
    σ → Nat → List (BatchReq × String) →
    Except StoreErr (σ × Nat × List BatchRes)
  | s, counter, [] => Except.ok (s, counter, [])
  | s, counter, (q, id) :: qs =>
      let shortURL := baseURL ++ "/" ++ id
      let r : URLRecord := ⟨id, shortURL, q.originalURL, userID, false⟩
      match st.save s r with
      | (_, _, some e) => Except.error e
      | (s2, _, none) =>
          match batchShorten st baseURL userID s2 (counter + 1) qs with
          | Except.error e => Except.error e
          | Except.ok (s3, c3, rest) =>
              Except.ok (s3, c3, ⟨q.correlationID, shortURL⟩ :: rest)

/-- Mirrors the synchronous part of `ShortenerService.BatchDeleteAsync`
(internal/logic/deleteBatch.go): overwrite `ids[i]` with
`BaseURL + "/" + ids[i]` for every index, then hand the mutated slice to the
detached `processBatchDelete` goroutine and return at once.  The store state
is returned unchanged because every `BatchUpdateDeleteFlag` call happens
inside the detached pipeline, never on this synchronous path; the result is
(store state at return time, the mutated ids slice). -/
def batchDeleteAsync {σ : Type} (_st : URLStore σ) (baseURL : String)
    (s : σ) (ids : List String) : σ × List String :=
  (s, ids.map (fun id => baseURL ++ "/" ++ id))

/-- The eventual net effect of the detached `processBatchDelete` pipeline on
the store, for one serialized schedule: every id of the mutated slice is
passed to `BatchUpdateDeleteFlag` with the user's id. -/
def processBatchDelete {σ : Type} (st : URLStore σ) (userID : String)
    (ids : List String) (s : σ) : σ :=
  ids.foldl (fun t id => st.batchUpdateDeleteFlag t id userID) s

/-! ## Concrete fixtures for closed theorems -/

/-- A stored record owned by user u1, short code id1. -/
def recA : URLRecord := ⟨"id1", "http://s/id1", "https://example.com/1", "u1", false⟩

/-- A second record with the same original URL as `recA` but a fresh id. -/
def recB : URLRecord := ⟨"id2", "http://s/id2", "https://example.com/1", "u2", false⟩

/-- The `urls` table row corresponding to `recA`. -/
def rowA : DBRow := ⟨"http://s/id1", "https://example.com/1", "u1", false⟩

/-- A two-item batch input, each request paired with its generated id. -/
def batchDemoInput : List (BatchReq × String) :=
  [(⟨"c1", "https://example.com/1"⟩, "aaa"), (⟨"c2", "https://example.com/2"⟩, "bbb")]

/-- The output `BatchShorten` produces for `batchDemoInput` on an empty
log-backed store with counter 1. -/
def batchDemoOut : FileState × Nat × List BatchRes :=
  ([⟨"aaa", "http://s/aaa", "https://example.com/1", "u1", false⟩,
    ⟨"bbb", "http://s/bbb", "https://example.com/2", "u1", false⟩], 3,
   [⟨"c1", "http://s/aaa"⟩, ⟨"c2", "http://s/bbb"⟩])

/-! ## Helper lemmas -/

/-- The log scan `FindOriginalURLByShortURL` is the first-match search. -/
theorem findOrig_eq_find? (q : String) (s : FileState) :
    findOriginalURLByShortURL q s =
      match s.find? (fun r => r.shortURL = q) with
      | some r => Except.ok (r.originalURL, r.deletedFlag)
      | none => Except.error StoreErr.errProcessDone := by
  induction s with
  | nil => rfl
  | cons r rs ih =>
      by_cases h : r.shortURL = q
      · simp [findOriginalURLByShortURL, List.find?_cons, h]
      · simp [findOriginalURLByShortURL, List.find?_cons, h, ih]

/-- Scanning a concatenation of two logs: the first log wins when it holds a
match; otherwise the scan continues into the second log. -/
theorem findOrig_append (q : String) (s t : FileState) :
    findOriginalURLByShortURL q (s ++ t) =
      match findOriginalURLByShortURL q s with
      | Except.ok v => Except.ok v
      | Except.error _ => findOriginalURLByShortURL q t := by
  induction s with
  | nil => rfl
  | cons r rs ih =>
      by_cases h : r.shortURL = q
      · simp [findOriginalURLByShortURL, h]
      · simpa [findOriginalURLByShortURL, h] using ih

/-- A list map that fixes every element is the identity. -/
theorem map_eq_self_of_fixed {α : Type} (f : α → α) :
    ∀ (l : List α), (∀ a ∈ l, f a = a) → l.map f = l
  | [], _ => rfl
  | a :: l, h => by
      simp only [List.map_cons, List.cons.injEq]
      exact ⟨h a (by simp), map_eq_self_of_fixed f l
        (fun b hb => h b (List.mem_cons_of_mem a hb))⟩

/-! ## Claim theorems -/

/-- C1 counterexample: on the log-backed store, saving a record whose
`originalURL` equals that of an already-stored record inserts a second
record anyway, returns the empty string instead of the existing record's
`shortURL`, and raises no `Duplicate` signal — so the claim as stated is
false at this input. -/
theorem fileSave_appends_duplicate_original :
    recA.originalURL = recB.originalURL
    ∧ FileStore.saveURLRecord [recA] recB = ([recA, recB], "", none)
    ∧ [recA, recB] ≠ [recA]
    ∧ ("" : String) ≠ recA.shortURL
    ∧ (none : Option StoreErr) ≠ some StoreErr.errorDuplicate := by
  refine ⟨rfl, rfl, by decide, by decide, by decide⟩

/-- C1 (amended): the dedup contract holds on the relational backend only.
`DBStore.SaveURLRecord` leaves the table unchanged and returns the existing
row's short URL with the `Duplicate` signal when a row with the same
`originalURL` exists, inserts and returns the input's short URL otherwise,
and preserves the at-most-one-record-per-`originalURL` invariant; the
log-backed `FileStore.SaveURLRecord` instead always appends the record and
returns the empty string with no error. -/
theorem save_dedup_relational_only :
    (∀ (s : DBState) (r : URLRecord) (row : DBRow),
        s.find? (fun w => w.originalURL = r.originalURL) = some row →
        DBStore.saveURLRecord s r = (s, row.shortURL, some StoreErr.errorDuplicate))
    ∧ (∀ (s : DBState) (r : URLRecord),
        (∀ w ∈ s, w.originalURL ≠ r.originalURL) →
        DBStore.saveURLRecord s r =
          (s ++ [⟨r.shortURL, r.originalURL, r.userUUID, r.deletedFlag⟩],
           r.shortURL, none))
    ∧ (∀ (s : DBState) (r : URLRecord),
        s.Pairwise (fun a b => a.originalURL ≠ b.originalURL) →
        (DBStore.saveURLRecord s r).1.Pairwise
          (fun a b => a.originalURL ≠ b.originalURL))
    ∧ (∀ (s : FileState) (r : URLRecord),
        FileStore.saveURLRecord s r = (s ++ [r], "", none)) := by
  refine ⟨?_, ?_, ?_, ?_⟩
  · intro s r row h
    simp [DBStore.saveURLRecord, h]
  · intro s r h
    have hf : s.find? (fun w => w.originalURL = r.originalURL) = none :=
      List.find?_eq_none.2 (by intro x hx; simpa using h x hx)
    simp [DBStore.saveURLRecord, hf]
  · intro s r h
    cases hf : s.find? (fun w => w.originalURL = r.originalURL) with
    | some row => simpa [DBStore.saveURLRecord, hf] using h
    | none =>
        have hall : ∀ w ∈ s, w.originalURL ≠ r.originalURL := by
          intro w hw
          simpa using List.find?_eq_none.1 hf w hw
        simp only [DBStore.saveURLRecord, hf]
        rw [List.pairwise_append]
        exact ⟨h, List.pairwise_singleton _ _,
          fun a ha b hb => by
            simp only [List.mem_singleton] at hb
            subst hb
            exact hall a ha⟩
  · intro s r
    rfl

/-- C1 witness: the amended theorem applied at concrete states, with each
hypothesis discharged by evaluation. -/
theorem save_dedup_relational_only_inst :
    DBStore.saveURLRecord [rowA] recB = ([rowA], "http://s/id1", some StoreErr.errorDuplicate)
    ∧ DBStore.saveURLRecord [] recA = ([rowA], "http://s/id1", none)
    ∧ (DBStore.saveURLRecord [rowA] recB).1.Pairwise
        (fun a b => a.originalURL ≠ b.originalURL)
    ∧ FileStore.saveURLRecord [recA] recB = ([recA] ++ [recB], "", none) := by
  refine ⟨save_dedup_relational_only.1 [rowA] recB rowA (by decide), ?_, ?_, ?_⟩
  · have h := save_dedup_relational_only.2.1 [] recA (by intro w hw; simp at hw)
    simpa [recA, rowA] using h
  · exact save_dedup_relational_only.2.2.1 [rowA] recB (by simp)
  · exact save_dedup_relational_only.2.2.2 [recA] recB

/-- C2: the soft-delete gate is broken on the log-backed store.  The
deletion pipeline passes the full short URL (`BaseURL + "/" + code`), which
the relational backend matches against `short_url` — after its update,
resolution returns `ErrURLDeleted` with the original URL attached — but
`FileStore.BatchUpdateDeleteFlag` compares that argument against the `UUID`
field, so for a record created by the service no entry is marked and the
subsequent `GetShortURL` still returns the original URL with no error. -/
theorem file_delete_by_shortURL_ineffective :
    getShortURLService fileStore "http://s"
        (FileStore.batchUpdateDeleteFlag [recA] "http://s/id1" "u1") "id1"
      = ("https://example.com/1", none)
    ∧ getShortURLService dbStore "http://s"
        (DBStore.batchUpdateDeleteFlag [rowA] "http://s/id1" "u1") "id1"
      = ("https://example.com/1", some ServiceErr.urlDeleted) := by
  constructor <;> rfl

/-- C3: `FileStore.BatchUpdateDeleteFlag` does not overwrite the log with
the updated set of entries.  `SaveAllRecords` opens the log through
`NewProducer`, i.e. with `O_WRONLY|O_CREATE|O_APPEND` and no truncation, so
the updated entries are appended after the old ones: starting from a
one-entry log whose entry matches both arguments, the log afterwards holds
two entries — the stale undeleted copy first, then the updated copy — not
exactly the updated set with each entry appearing once. -/
theorem file_rewrite_appends_second_copy :
    FileStore.batchUpdateDeleteFlag [recA] "id1" "u1"
      = [recA, ⟨"id1", "http://s/id1", "https://example.com/1", "u1", true⟩]
    ∧ (FileStore.batchUpdateDeleteFlag [recA] "id1" "u1").length = 2
    ∧ FileStore.batchUpdateDeleteFlag [recA] "id1" "u1"
        ≠ [⟨"id1", "http://s/id1", "https://example.com/1", "u1", true⟩] := by
  refine ⟨rfl, rfl, by decide⟩

/-- Running `BatchShorten` on each item of a successful batch: the results
carry the inputs' correlation ids in order, the locally generated short URLs
in order, and have the input's length. -/
theorem batchShorten_ok_spec {σ : Type} (st : URLStore σ) (b u : String) :
    ∀ (qs : List (BatchReq × String)) (s : σ) (c : Nat)
      (out : σ × Nat × List BatchRes),
      batchShorten st b u s c qs = Except.ok out →
      out.2.2.map BatchRes.correlationID = qs.map (fun p => p.1.correlationID)
      ∧ out.2.2.map BatchRes.shortURL = qs.map (fun p => b ++ "/" ++ p.2)
      ∧ out.2.2.length = qs.length := by
  intro qs
  induction qs with
  | nil =>
      intro s c out h
      simp only [batchShorten, Except.ok.injEq] at h
      subst h
      simp
  | cons p qs ih =>
      intro s c out h
      obtain ⟨q, id⟩ := p
      simp only [batchShorten] at h
      split at h
      · exact absurd h (by simp)
      · split at h
        · exact absurd h (by simp)
        · next s3 c3 rest hrec =>
            simp only [Except.ok.injEq] at h
            subst h
            have hq := ih _ _ _ hrec
            simp [hq.1, hq.2.1, hq.2.2]

/-- `BatchShorten` processes a concatenated input sequentially: the second
part runs from the state and counter the first part produced, and any error
in either part is the whole batch's result. -/
theorem batchShorten_append {σ : Type} (st : URLStore σ) (b u : String) :
    ∀ (qs1 qs2 : List (BatchReq × String)) (s : σ) (c : Nat),
      batchShorten st b u s c (qs1 ++ qs2) =
        match batchShorten st b u s c qs1 with
        | Except.error e => Except.error e
        | Except.ok (s1, c1, rs) =>
            match batchShorten st b u s1 c1 qs2 with
            | Except.error e => Except.error e
            | Except.ok (s2, c2, rs2) => Except.ok (s2, c2, rs ++ rs2) := by
  intro qs1
  induction qs1 with
  | nil =>
      intro qs2 s c
      simp only [List.nil_append, batchShorten]
      rcases batchShorten st b u s c qs2 with e | ⟨s2, c2, rs2⟩ <;> simp
  | cons p qs1 ih =>
      intro qs2 s c
      obtain ⟨q, id⟩ := p
      simp only [List.cons_append, batchShorten]
      rcases hs : st.save s ⟨id, b ++ "/" ++ id, q.originalURL, u, false⟩
        with ⟨s2, str, err⟩
      cases err with
      | some e => rfl
      | none =>
          dsimp only
          rw [List.append_eq, ih qs2 s2 (c + 1)]
          rcases batchShorten st b u s2 (c + 1) qs1 with e | ⟨s3, c3, rs⟩
          · rfl
          · rcases h2 : batchShorten st b u s3 c3 qs2 with e | ⟨s4, c4, rs2⟩ <;>
              simp [h2]

/-- C4 counterexample: a `Save` that reports `Duplicate` is treated as a
failure, not as an ordinary success.  On the relational store holding one
row for this original URL, a one-item batch for the same original URL
returns the duplicate error and no results — the claim says the item
should be an ordinary success carrying the short URL `Save` returned. -/
theorem batch_duplicate_aborts :
    batchShorten dbStore "http://s" "u1" [rowA] 1
        [(⟨"c1", "https://example.com/1"⟩, "id9")]
      = Except.error StoreErr.errorDuplicate := rfl

/-- C4 (amended): any single `Save` failure — the `Duplicate` signal
included, since `database.ErrorDuplicate` is a non-nil error — aborts the
whole batch as soon as it occurs and surfaces that error, with no partial
results; and on a batch where every `Save` succeeds, each result's
`shortURL` is the locally generated `BaseURL + "/" + id`, the value `Save`
returned being discarded. -/
theorem batch_aborts_on_any_save_error :
    (∀ (σ : Type) (st : URLStore σ) (b u : String) (s : σ) (c : Nat)
        (qs1 : List (BatchReq × String)) (q : BatchReq) (id : String)
        (qs2 : List (BatchReq × String)) (s1 : σ) (c1 : Nat)
        (rs : List BatchRes) (e : StoreErr),
        batchShorten st b u s c qs1 = Except.ok (s1, c1, rs) →
        (st.save s1 ⟨id, b ++ "/" ++ id, q.originalURL, u, false⟩).2.2 = some e →
        batchShorten st b u s c (qs1 ++ (q, id) :: qs2) = Except.error e)
    ∧ (∀ (σ : Type) (st : URLStore σ) (b u : String)
        (qs : List (BatchReq × String)) (s : σ) (c : Nat)
        (out : σ × Nat × List BatchRes),
        batchShorten st b u s c qs = Except.ok out →
        out.2.2.map BatchRes.shortURL = qs.map (fun p => b ++ "/" ++ p.2)) := by
  constructor
  · intro σ st b u s c qs1 q id qs2 s1 c1 rs e h1 h2
    rw [batchShorten_append st b u qs1 ((q, id) :: qs2) s c, h1]
    dsimp only
    rcases hs : st.save s1 ⟨id, b ++ "/" ++ id, q.originalURL, u, false⟩
      with ⟨s2, str, err⟩
    rw [hs] at h2
    simp only at h2
    subst h2
    simp [batchShorten, hs]
  · intro σ st b u qs s c out h
    exact (batchShorten_ok_spec st b u qs s c out h).2.1

/-- C4 witness: the amended theorem applied at concrete inputs. -/
theorem batch_aborts_on_any_save_error_inst :
    batchShorten dbStore "http://s" "u1" [rowA] 1
        ([] ++ [(⟨"c1", "https://example.com/1"⟩, "id9")])
      = Except.error StoreErr.errorDuplicate
    ∧ batchDemoOut.2.2.map BatchRes.shortURL
      = batchDemoInput.map (fun p => "http://s" ++ "/" ++ p.2) :=
  ⟨batch_aborts_on_any_save_error.1 DBState dbStore "http://s" "u1" [rowA] 1
      [] ⟨"c1", "https://example.com/1"⟩ "id9" [] [rowA] 1 []
      StoreErr.errorDuplicate rfl rfl,
   batch_aborts_on_any_save_error.2 FileState fileStore "http://s" "u1"
      batchDemoInput [] 1 batchDemoOut rfl⟩

/-- C8: on a batch input where no save fails, `BatchShorten` returns exactly
one result per input item, in input order, the i-th result carrying the
correlation id of the i-th input item. -/
theorem batch_preserves_order_and_correlation :
    ∀ (σ : Type) (st : URLStore σ) (b u : String)
      (qs : List (BatchReq × String)) (s : σ) (c : Nat)
      (out : σ × Nat × List BatchRes),
      batchShorten st b u s c qs = Except.ok out →
      out.2.2.length = qs.length
      ∧ out.2.2.map BatchRes.correlationID = qs.map (fun p => p.1.correlationID) := by
  intro σ st b u qs s c out h
  have hspec := batchShorten_ok_spec st b u qs s c out h
  exact ⟨hspec.2.2, hspec.1⟩

/-- C8 witness: the theorem applied to a concrete two-item batch run. -/
theorem batch_preserves_order_and_correlation_inst :
    batchDemoOut.2.2.length = batchDemoInput.length
    ∧ batchDemoOut.2.2.map BatchRes.correlationID
      = batchDemoInput.map (fun p => p.1.correlationID) :=
  batch_preserves_order_and_correlation FileState fileStore "http://s" "u1"
    batchDemoInput [] 1 batchDemoOut rfl

/-- C5 counterexample: on the log-backed store, calling `CreateShortURL`
twice with the same original URL yields two different short URLs and the
second call reports no `Duplicate` signal, so the claim's quantification
over both backends is false at this input. -/
theorem createOne_file_no_dedup :
    (createShortURL fileStore "http://s" "id1" [] 1
        "https://example.com/1" "u1").2.2 = ("http://s/id1", none)
    ∧ (createShortURL fileStore "http://s" "id2"
        (createShortURL fileStore "http://s" "id1" [] 1
          "https://example.com/1" "u1").1
        (createShortURL fileStore "http://s" "id1" [] 1
          "https://example.com/1" "u1").2.1
        "https://example.com/1" "u1").2.2 = ("http://s/id2", none)
    ∧ ("http://s/id2" : String) ≠ "http://s/id1" := by
  refine ⟨rfl, rfl, by decide⟩

/-- C5 (amended): dedup idempotence holds on the relational backend only:
starting from a table with no row for the original URL, the first
`CreateShortURL` returns its freshly built short URL with no error, and a
second call for the same original URL returns that same short URL together
with the `Duplicate` signal — whatever fresh id the second call generated. -/
theorem createOne_idempotent_db_only :
    ∀ (s : DBState) (b id1 id2 orig user : String) (c : Nat),
      (∀ w ∈ s, w.originalURL ≠ orig) →
      (createShortURL dbStore b id1 s c orig user).2.2
        = (b ++ "/" ++ id1, none)
      ∧ (createShortURL dbStore b id2
          (createShortURL dbStore b id1 s c orig user).1
          (createShortURL dbStore b id1 s c orig user).2.1
          orig user).2.2
        = (b ++ "/" ++ id1, some (ServiceErr.storeErr StoreErr.errorDuplicate)) := by
  intro s b id1 id2 orig user c hfresh
  have hf : s.find? (fun w => w.originalURL = orig) = none :=
    List.find?_eq_none.2 (by intro x hx; simpa using hfresh x hx)
  have h1 : createShortURL dbStore b id1 s c orig user
      = (s ++ [⟨b ++ "/" ++ id1, orig, user, false⟩], c + 1, b ++ "/" ++ id1, none) := by
    simp [createShortURL, dbStore, DBStore.saveURLRecord, hf]
  constructor
  · rw [h1]
  · rw [h1]
    simp [createShortURL, dbStore, DBStore.saveURLRecord, List.find?_append, hf]

/-- C5 witness: the amended theorem applied on the empty table. -/
theorem createOne_idempotent_db_only_inst :
    (createShortURL dbStore "http://s" "id1" [] 1
        "https://example.com/1" "u1").2.2 = ("http://s" ++ "/" ++ "id1", none)
    ∧ (createShortURL dbStore "http://s" "id2"
        (createShortURL dbStore "http://s" "id1" [] 1
          "https://example.com/1" "u1").1
        (createShortURL dbStore "http://s" "id1" [] 1
          "https://example.com/1" "u1").2.1
        "https://example.com/1" "u1").2.2
      = ("http://s" ++ "/" ++ "id1",
         some (ServiceErr.storeErr StoreErr.errorDuplicate)) :=
  createOne_idempotent_db_only [] "http://s" "id1" "id2"
    "https://example.com/1" "u1" 1 (by intro w hw; simp at hw)

/-- C6 counterexample: on the relational backend a never-created code does
not yield `ErrURLNotFound`: the driver's no-rows error is passed through
raw, because `GetShortURL` only maps `os.ErrProcessDone` to the not-found
kind and `DBStore.GetOriginalURL` never returns that error. -/
theorem resolve_db_notfound_raw :
    getShortURLService dbStore "http://s" [] "zzz"
      = ("", some (ServiceErr.storeErr StoreErr.pgxNoRows))
    ∧ some (ServiceErr.storeErr StoreErr.pgxNoRows)
        ≠ some ServiceErr.urlNotFound := by
  refine ⟨rfl, by decide⟩

/-- C6 (amended): on the log-backed store, `GetShortURL` yields
`ErrURLNotFound` exactly when no entry matches the full short URL, and when
a first matching entry exists it yields that entry's original URL, with
`ErrURLDeleted` when its deleted flag is set and no error otherwise; the
relational backend behaves the same on matching rows, but a missing code
surfaces the driver's no-rows error instead of `ErrURLNotFound`. -/
theorem resolve_error_mapping :
    (∀ (s : FileState) (b code : String),
        getShortURLService fileStore b s code = ("", some ServiceErr.urlNotFound)
        ↔ ∀ r ∈ s, r.shortURL ≠ b ++ "/" ++ code)
    ∧ (∀ (s : FileState) (b code : String) (r : URLRecord),
        s.find? (fun w => w.shortURL = b ++ "/" ++ code) = some r →
        getShortURLService fileStore b s code
          = (r.originalURL,
             if r.deletedFlag then some ServiceErr.urlDeleted else none))
    ∧ (∀ (s : DBState) (b code : String),
        s.find? (fun w => w.shortURL = b ++ "/" ++ code) = none →
        getShortURLService dbStore b s code
          = ("", some (ServiceErr.storeErr StoreErr.pgxNoRows)))
    ∧ (∀ (s : DBState) (b code : String) (w : DBRow),
        s.find? (fun x => x.shortURL = b ++ "/" ++ code) = some w →
        getShortURLService dbStore b s code
          = (w.originalURL,
             if w.deleted then some ServiceErr.urlDeleted else none)) := by
  refine ⟨?_, ?_, ?_, ?_⟩
  · intro s b code
    cases hf : s.find? (fun w => w.shortURL = b ++ "/" ++ code) with
    | none =>
        simp only [getShortURLService, fileStore, FileStore.getOriginalURL,
          findOrig_eq_find?, hf]
        refine ⟨fun _ r hr => ?_, fun _ => rfl⟩
        simpa using List.find?_eq_none.1 hf r hr
    | some r =>
        have hr : r ∈ s := List.mem_of_find?_eq_some hf
        have hp : r.shortURL = b ++ "/" ++ code := by
          simpa using List.find?_some hf
        simp only [getShortURLService, fileStore, FileStore.getOriginalURL,
          findOrig_eq_find?, hf]
        constructor
        · intro hEq
          by_cases hd : r.deletedFlag <;> simp [hd] at hEq
        · intro hAll
          exact absurd hp (hAll r hr)
  · intro s b code r hf
    simp only [getShortURLService, fileStore, FileStore.getOriginalURL,
      findOrig_eq_find?, hf]
    by_cases hd : r.deletedFlag <;> simp [hd]
  · intro s b code hf
    simp [getShortURLService, dbStore, DBStore.getOriginalURL, hf]
  · intro s b code w hf
    simp only [getShortURLService, dbStore, DBStore.getOriginalURL, hf]
    by_cases hd : w.deleted <;> simp [hd]

/-- C6 witness: the amended theorem applied at concrete store states. -/
theorem resolve_error_mapping_inst :
    getShortURLService fileStore "http://s" [] "id1"
      = ("", some ServiceErr.urlNotFound)
    ∧ getShortURLService fileStore "http://s" [recA] "id1"
      = (recA.originalURL,
         if recA.deletedFlag then some ServiceErr.urlDeleted else none)
    ∧ getShortURLService dbStore "http://s" [] "id1"
      = ("", some (ServiceErr.storeErr StoreErr.pgxNoRows))
    ∧ getShortURLService dbStore "http://s" [rowA] "id1"
      = (rowA.originalURL,
         if rowA.deleted then some ServiceErr.urlDeleted else none) :=
  ⟨(resolve_error_mapping.1 [] "http://s" "id1").mpr (by simp),
   resolve_error_mapping.2.1 [recA] "http://s" "id1" recA (by decide),
   resolve_error_mapping.2.2.1 [] "http://s" "id1" rfl,
   resolve_error_mapping.2.2.2 [rowA] "http://s" "id1" rowA (by decide)⟩

/-- C7 counterexample: on the log-backed store a `BatchUpdateDeleteFlag`
call whose owner does not match the record's owner does not leave the store
state unchanged: the full record set is appended to the log a second time. -/
theorem markDeleted_file_changes_state :
    FileStore.batchUpdateDeleteFlag [recA] "id1" "u2" = [recA, recA]
    ∧ [recA, recA] ≠ [recA] := by
  refine ⟨rfl, by decide⟩

/-- C7 (amended): on the relational backend `BatchUpdateDeleteFlag` is an
error-free no-op whenever every row matching the code and owner is already
deleted — in particular when no row matches or the owner differs.  On the
log-backed store such a call also returns no error and leaves every
subsequent resolution unchanged (so a call with a non-matching owner leaves
the code resolving without the `Gone` signal), but the log itself is not
unchanged: the whole record set is appended to the file again. -/
theorem markDeleted_idempotent_scoped :
    (∀ (s : DBState) (u w : String),
        (∀ row ∈ s, row.shortURL = u → row.userID = w → row.deleted = true) →
        DBStore.batchUpdateDeleteFlag s u w = s)
    ∧ (∀ (s : FileState) (u w : String),
        (∀ r ∈ s, r.uuid = u → r.userUUID = w → r.deletedFlag = true) →
        FileStore.batchUpdateDeleteFlag s u w = s ++ s
        ∧ ∀ q, findOriginalURLByShortURL q (s ++ s)
            = findOriginalURLByShortURL q s) := by
  constructor
  · intro s u w h
    apply map_eq_self_of_fixed
    intro row hrow
    by_cases hc : row.shortURL = u ∧ row.userID = w
    · have hd := h row hrow hc.1 hc.2
      cases row
      simp only at hd
      simp [hc, hd]
    · simp [hc]
  · intro s u w h
    have hmap : s.map (markEntry u w) = s := by
      apply map_eq_self_of_fixed
      intro r hr
      by_cases hc : r.uuid = u ∧ r.userUUID = w
      · have hd := h r hr hc.1 hc.2
        cases r
        simp only at hd
        simp [markEntry, hc, hd]
      · simp [markEntry, hc]
    refine ⟨by simp [FileStore.batchUpdateDeleteFlag,
      FileStore.saveAllRecords, hmap], ?_⟩
    intro q
    rw [findOrig_append]
    cases hq : findOriginalURLByShortURL q s <;> simp

/-- C7 witness: the amended theorem applied at concrete states: an
owner-mismatched delete on the relational store, and an owner-mismatched
delete on the log-backed store followed by a resolution. -/
theorem markDeleted_idempotent_scoped_inst :
    DBStore.batchUpdateDeleteFlag [rowA] "http://s/id1" "u2" = [rowA]
    ∧ FileStore.batchUpdateDeleteFlag [recA] "id1" "u2" = [recA] ++ [recA]
    ∧ findOriginalURLByShortURL "http://s/id1" ([recA] ++ [recA])
        = findOriginalURLByShortURL "http://s/id1" [recA] :=
  ⟨markDeleted_idempotent_scoped.1 [rowA] "http://s/id1" "u2" (by decide),
   (markDeleted_idempotent_scoped.2 [recA] "id1" "u2" (by decide)).1,
   (markDeleted_idempotent_scoped.2 [recA] "id1" "u2" (by decide)).2
     "http://s/id1"⟩

/-- Every 6-bit group maps into the URL-safe base64 alphabet. -/
theorem b64Char_mem (n : Nat) (h : n < 64) : b64Char n ∈ base64URLChars := by
  have hn : n < base64URLChars.length := by
    rw [show base64URLChars.length = 64 from rfl]
    exact h
  rw [b64Char, List.getD_eq_getElem base64URLChars 'A' hn]
  exact List.getElem_mem hn

/-- C9: for any 8 random bytes, `generateID` produces exactly 12 characters
— the padded URL-safe base64 encoding, whose first 11 characters lie in the
base64url alphabet and whose last character is the single `=` padding — so
every generated short URL ends in a 12-character token and the code
comment's stated length of 8 does not match. -/
theorem generateID_twelve_chars_padded :
    ∀ (bs : List Nat), bs.length = 8 → (∀ x ∈ bs, x < 256) →
      (generateID bs).length = 12
      ∧ (generateID bs).length ≠ 8
      ∧ (generateID bs).getLast? = some '='
      ∧ ∀ ch ∈ (generateID bs).take 11, ch ∈ base64URLChars := by
  intro bs hlen hbound
  match bs, hlen with
  | [a, b, c, d, e, f, g, h], _ =>
    have ha : a < 256 := hbound a (by simp)
    have hb : b < 256 := hbound b (by simp)
    have hc : c < 256 := hbound c (by simp)
    have hd : d < 256 := hbound d (by simp)
    have he : e < 256 := hbound e (by simp)
    have hf : f < 256 := hbound f (by simp)
    have hg : g < 256 := hbound g (by simp)
    have hh : h < 256 := hbound h (by simp)
    have h12 : (generateID [a, b, c, d, e, f, g, h]).length = 12 := rfl
    refine ⟨h12, by omega, rfl, ?_⟩
    intro ch hch
    simp only [generateID, encodeBase64URL, List.take, List.mem_cons,
      List.not_mem_nil, or_false] at hch
    rcases hch with rfl | rfl | rfl | rfl | rfl | rfl | rfl | rfl | rfl | rfl | rfl <;>
      exact b64Char_mem _ (by omega)

/-- C9 witness: the theorem applied to the all-zero byte string. -/
theorem generateID_twelve_chars_padded_inst :
    (generateID [0, 0, 0, 0, 0, 0, 0, 0]).length = 12
    ∧ (generateID [0, 0, 0, 0, 0, 0, 0, 0]).getLast? = some '='
    ∧ 'A' ∈ base64URLChars :=
  ⟨(generateID_twelve_chars_padded [0, 0, 0, 0, 0, 0, 0, 0] rfl
      (by intro x hx; simp at hx; omega)).1,
   (generateID_twelve_chars_padded [0, 0, 0, 0, 0, 0, 0, 0] rfl
      (by intro x hx; simp at hx; omega)).2.2.1,
   (generateID_twelve_chars_padded [0, 0, 0, 0, 0, 0, 0, 0] rfl
      (by intro x hx; simp at hx; omega)).2.2.2 'A' (by decide)⟩

/-- C10: the synchronous part of `BatchDeleteAsync` rewrites the caller's
ids slice in place — index i becomes `BaseURL + "/" + ids[i]` — while the
store is untouched on the synchronous path (all `BatchUpdateDeleteFlag`
calls happen in the detached pipeline); running the synchronous part again
on the already-mutated slice therefore double-prepends the base URL. -/
theorem batchDeleteAsync_sync_effects :
    ∀ (σ : Type) (st : URLStore σ) (b : String) (s : σ) (ids : List String),
      (batchDeleteAsync st b s ids).1 = s
      ∧ (batchDeleteAsync st b s ids).2 = ids.map (fun x => b ++ "/" ++ x)
      ∧ (batchDeleteAsync st b s (batchDeleteAsync st b s ids).2).2
          = ids.map (fun x => b ++ "/" ++ (b ++ "/" ++ x)) := by
  intro σ st b s ids
  refine ⟨rfl, rfl, ?_⟩
  simp [batchDeleteAsync, List.map_map, Function.comp]
